import Mathlib

/-!
Verification of the core logic of the `sqs-dlq-redrive-webapp` repository.

The TypeScript source is shallowly embedded in Lean:
* pure functions become Lean functions,
* module-level mutable state (the session store, the cached OIDC client)
  becomes explicit state passing,
* network calls to the queue / identity provider become oracle parameters
  (functions or values describing what the provider answers),
* `Date.now()` becomes an explicit `now : Int` parameter (epoch milliseconds),
* fallible code returns `Except`.

JSON numbers are modelled as integers; none of the verified properties
depends on numeric stringification beyond it being a function.
-/

namespace DlqRedrive

/-! ## JSON values (result of `JSON.parse` on a message body)

`src/filtering/jsonFilter.ts` treats the parsed body as an arbitrary
JavaScript value produced by `JSON.parse`. -/

inductive Json where
  | null
  | bool (b : Bool)
  | num (n : Int)
  | str (s : String)
  | arr (elems : List Json)
  | obj (fields : List (String × Json))
deriving Repr

mutual

/-- JavaScript `String(value)` on a parsed-JSON value: used by the filter's
`String(value) === expectedValue` comparison. -/
def jsString : Json → String
  | .null => "null"
  | .bool true => "true"
  | .bool false => "false"
  | .num n => toString n
  | .str s => s
  | .arr elems => jsStringList elems
  | .obj _ => "[object Object]"

/-- JavaScript array stringification: elements joined with commas. -/
def jsStringList : List Json → String
  | [] => ""
  | [x] => jsString x
  | x :: y :: xs => jsString x ++ "," ++ jsStringList (y :: xs)

end

/-- JavaScript property access `current[part]` on an object or array value.
Object fields are looked up by key (`JSON.parse` output has unique keys);
array access converts the key to a numeric index. Any other access yields
`undefined` (`none`). -/
def jsGet : Json → String → Option Json
  | .obj fields, key => (fields.find? (fun p => p.1 == key)).map (·.2)
  | .arr elems, key => (key.toNat?).bind (fun i => elems.get? i)
  | _, _ => none

/-- JavaScript `path.split(".")`: split the character list on every dot.
`String.splitOn` is extensionally the same but does not reduce in the
kernel, so the split is done on the underlying character list. -/
def splitDot : List Char → List String
  | [] => [""]
  | c :: rest =>
    let r := splitDot rest
    if c = '.' then "" :: r
    else
      match r with
      | [] => [String.mk [c]]
      | s :: ss => String.mk (c :: s.data) :: ss

/-- `getByPath` from `src/filtering/jsonFilter.ts`: resolve a dotted path by
descending field by field.  An empty path resolves to `undefined`; the
descent short-circuits to `undefined` the moment the current value is
`null`/`undefined` or not an object.  (`typeof x === "object"` holds in
JavaScript exactly for objects, arrays and `null`.) -/
def getByPathGo : List String → Json → Option Json
  | [], current => some current
  | part :: rest, current =>
    match current with
    | .null => none
    | .obj fields =>
      match jsGet (.obj fields) part with
      | none => none
      | some v => getByPathGo rest v
    | .arr elems =>
      match jsGet (.arr elems) part with
      | none => none
      | some v => getByPathGo rest v
    | _ => none

def getByPath (obj : Json) (path : String) : Option Json :=
  if path = "" then none
  else getByPathGo (splitDot path.data) obj

/-! ## AttributeFilter (`src/filtering/jsonFilter.ts`) -/

structure RawMessage where
  MessageId : Option String := none
  ReceiptHandle : Option String := none
  Body : Option String := none
deriving Repr

structure FilteredMessage where
  raw : RawMessage
  parsedBody : Option Json := none
  attributeValue : Option Json := none
  parseError : Option String := none
deriving Repr

/-- `filterByAttributePath` from `src/filtering/jsonFilter.ts`.

`JSON.parse` is an external library call; it is passed in as the oracle
`parse : String → Except String Json` (an `Except.error` carries the
parse-error message).  `!msg.Body` in JavaScript is true both for an
absent body and for the empty string. -/
def filterByAttributePath (parse : String → Except String Json)
    (messages : List RawMessage) (attributePath : String)
    (expectedValue : String) (exclude : Bool) : List FilteredMessage :=
  match messages with
  | [] => []
  | msg :: rest =>
    let tail := filterByAttributePath parse rest attributePath expectedValue exclude
    match msg.Body with
    | none => tail
    | some body =>
      if body = "" then tail
      else
        match parse body with
        | .error e => { raw := msg, parseError := some e } :: tail
        | .ok parsed =>
          match getByPath parsed attributePath with
          | none =>
            if exclude then
              { raw := msg, parsedBody := some parsed } :: tail
            else tail
          | some value =>
            let isMatch := jsString value == expectedValue
            if (if exclude then !isMatch else isMatch) then
              { raw := msg, parsedBody := some parsed, attributeValue := some value } :: tail
            else tail

/-! ## MessageFetcher (`src/aws/sqsService.ts`, `receiveDeduplicated`)

The SQS client is an oracle `receive : Nat → Nat → List Message`: the value
`receive t k` is the provider's answer (`res.Messages ?? []`) to the `t`-th
`ReceiveMessageCommand` of the call, issued with `MaxNumberOfMessages = k`.
A ghost counter records how many receive requests were issued. -/

structure Message where
  MessageId : Option String := none
  ReceiptHandle : Option String := none
  Body : Option String := none
deriving Repr, DecidableEq

/-- The inner `for (const msg of batch)` loop: push each message whose
dedup key (`msg.MessageId ?? ""`) has not been seen, counting how many in
the batch were new.  Returns the updated seen set, the updated result and
`newInBatch`. -/
def processBatch : List Message → List String → List Message → Nat →
    List String × List Message × Nat
  | [], seen, acc, n => (seen, acc, n)
  | msg :: rest, seen, acc, n =>
    let id := msg.MessageId.getD ""
    if seen.contains id then
      processBatch rest seen acc n
    else
      processBatch rest (id :: seen) (acc ++ [msg]) (n + 1)

/-- The `while (messages.length < maxMessages)` loop of
`receiveDeduplicated`.  `fuel` bounds the recursion depth; every iteration
that recurses strictly grows the result, so `fuel = maxMessages` makes the
fuel-exhaustion branch unreachable (proved below as fuel irrelevance).
The second result component counts issued receive requests. -/
def receiveLoop (receive : Nat → Nat → List Message) (maxMessages : Nat) :
    Nat → Nat → List String → List Message → Nat → List Message × Nat
  | fuel, t, seen, acc, reqs =>
    if maxMessages ≤ acc.length then (acc, reqs)
    else
      match fuel with
      | 0 => (acc, reqs)
      | fuel' + 1 =>
        let batchSize := min 10 (maxMessages - acc.length)
        let batch := receive t batchSize
        if batch.length = 0 then (acc, reqs + 1)
        else
          let r := processBatch batch seen acc 0
          if r.2.2 = 0 then (r.2.1, reqs + 1)
          else receiveLoop receive maxMessages fuel' (t + 1) r.1 r.2.1 (reqs + 1)

/-- `Math.max(1, Math.min(options.maxMessages, 5000))`. -/
def clampMax (m : Nat) : Nat := max 1 (min m 5000)

/-- `receiveDeduplicated` from `src/aws/sqsService.ts`: returns the
deduplicated messages plus the ghost request count. -/
def receiveDeduplicated (receive : Nat → Nat → List Message)
    (maxMessagesOpt : Nat) : List Message × Nat :=
  let maxMessages := clampMax maxMessagesOpt
  receiveLoop receive maxMessages maxMessages 0 [] [] 0

/-! ## RedriveExecutor (`src/aws/sqsService.ts`, `redriveMessages`)

The provider is modelled by two oracles indexed by the batch start index
`i` (0, 10, 20, …): `sendFailed i` is `sendRes.Failed.map(f => f.Id)` for
the send request of the batch starting at `i`, and `deleteFailed i` the
same for its delete request.  Message-attribute payloads are opaque and
omitted.  Counters are integers, as in JavaScript. -/

structure RedriveInputMessage where
  messageId : String
  receiptHandle : String
  body : String
deriving Repr, DecidableEq

structure RedriveResultSummary where
  sent : Int
  sendFailed : Int
  deleted : Int
  deleteFailed : Int
deriving Repr, DecidableEq

/-- `Id: ` followed by the interpolation `{i + idx}-{m.messageId}` (written
in the source as a template literal). -/
def compositeId (g : Nat) (messageId : String) : String :=
  toString g ++ "-" ++ messageId

structure SendBatchEntry where
  Id : String
  MessageBody : String
deriving Repr, DecidableEq

structure DeleteBatchEntry where
  Id : String
  ReceiptHandle : String
deriving Repr, DecidableEq

/-- Ghost record of the requests one batch iteration issued: the entries of
the `SendMessageBatchCommand` and, when a delete request was issued, the
entries of the `DeleteMessageBatchCommand`. -/
structure BatchTrace where
  sendEntries : List SendBatchEntry
  deleteEntries : Option (List DeleteBatchEntry)
deriving Repr, DecidableEq

/-- The `for (let i = 0; i < messages.length; i += 10)` loop of
`redriveMessages`.  Recursion is on `fuel`; `fuel = messages.length` is
enough since every iteration drops at least one message. -/
def redriveLoop (sendFailed deleteFailed : Nat → List String)
    (deleteAfterSend : Bool) :
    Nat → List RedriveInputMessage → Nat → List BatchTrace × RedriveResultSummary
  | _, [], _ => ([], ⟨0, 0, 0, 0⟩)
  | 0, _ :: _, _ => ([], ⟨0, 0, 0, 0⟩)
  | fuel + 1, msg :: more, i =>
    let msgs := msg :: more
    let batch := msgs.take 10
    let sendEntries := batch.enum.map
      (fun p => (⟨compositeId (i + p.1) p.2.messageId, p.2.body⟩ : SendBatchEntry))
    let failedSendIds := sendFailed i
    let successfulBatch := (batch.enum.filter
      (fun p => !(failedSendIds.contains (compositeId (i + p.1) p.2.messageId)))).map Prod.snd
    let sentB : Int := successfulBatch.length
    let sendFailedB : Int := (batch.length : Int) - successfulBatch.length
    let doDelete := deleteAfterSend && decide (0 < successfulBatch.length)
    let deleteReq : Option (List DeleteBatchEntry) :=
      if doDelete then
        some (successfulBatch.enum.map
          (fun p => (⟨compositeId (i + p.1) p.2.messageId, p.2.receiptHandle⟩ : DeleteBatchEntry)))
      else none
    let deletedB : Int := if doDelete then sentB - (deleteFailed i).length else 0
    let deleteFailedB : Int := if doDelete then ((deleteFailed i).length : Int) else 0
    let rest := redriveLoop sendFailed deleteFailed deleteAfterSend fuel (msgs.drop 10) (i + 10)
    (⟨sendEntries, deleteReq⟩ :: rest.1,
      ⟨sentB + rest.2.sent, sendFailedB + rest.2.sendFailed,
       deletedB + rest.2.deleted, deleteFailedB + rest.2.deleteFailed⟩)

/-- `redriveMessages` from `src/aws/sqsService.ts`: the batch traces and
the accumulated `RedriveResultSummary`. -/
def redriveMessages (sendFailed deleteFailed : Nat → List String)
    (messages : List RedriveInputMessage) (deleteAfterSend : Bool) :
    List BatchTrace × RedriveResultSummary :=
  redriveLoop sendFailed deleteFailed deleteAfterSend messages.length messages 0

/-! ## SessionStore (`src/aws/sessionStore.ts`)

The module-level `Map` becomes an explicit association list threaded
through the operations; `expiresAt` is an epoch-millisecond timestamp
(`Date.getTime()`), `Date.now()` an explicit parameter.  A JavaScript
`Date` object is always truthy, so `value.expiresAt &&` tests presence. -/

structure ConnectedSsoSession where
  ssoSession : String
  ssoRegion : String
  accessToken : String
  expiresAt : Option Int := none
deriving Repr, DecidableEq

def SessionMap := List (String × ConnectedSsoSession)

def sessionLookup (store : SessionMap) (sessionId : String) :
    Option ConnectedSsoSession :=
  (List.find? (fun p => p.1 == sessionId) store).map (·.2)

def sessionDelete (store : SessionMap) (sessionId : String) : SessionMap :=
  List.filter (fun p => p.1 != sessionId) store

/-- `setSsoSession`: `store.set(sessionId, session)` (overwrite). -/
def setSsoSession (store : SessionMap) (sessionId : String)
    (session : ConnectedSsoSession) : SessionMap :=
  (sessionId, session) :: sessionDelete store sessionId

/-- `getSsoSession`: absent keys and expired entries yield `none`; an
expired entry is deleted from the store (lazy eviction).  Returns the
result together with the possibly-updated store. -/
def getSsoSession (store : SessionMap) (sessionId : String) (now : Int) :
    Option ConnectedSsoSession × SessionMap :=
  match sessionLookup store sessionId with
  | none => (none, store)
  | some value =>
    match value.expiresAt with
    | some t =>
      if t ≤ now then (none, sessionDelete store sessionId)
      else (some value, store)
    | none => (some value, store)

/-! ## DeviceAuthFlow (`src/aws/ssoLogin.ts`)

`loadSsoProfiles()` becomes a profile-list parameter, the OIDC network
calls become oracle values, and the module-level `registeredClient` cache
plus the session store become an explicit `AppState`. -/

structure SsoProfile where
  name : String
  ssoStartUrl : String
  ssoRegion : String
  ssoSession : String
deriving Repr, DecidableEq

structure RegisteredClient where
  clientId : String
  clientSecret : String
deriving Repr, DecidableEq

/-- Provider answer to `RegisterClientCommand`. -/
structure RegisterClientResponse where
  clientId : Option String := none
  clientSecret : Option String := none
deriving Repr, DecidableEq

/-- Provider answer to `CreateTokenCommand` when it resolves. -/
structure CreateTokenResponse where
  accessToken : Option String := none
  expiresIn : Option Int := none
deriving Repr, DecidableEq

/-- The fields of a `CreateTokenCommand` rejection that `pollForLogin`
inspects (`err.name`, `err.error`). -/
structure ProviderError where
  name : Option String := none
  error : Option String := none
deriving Repr, DecidableEq

/-- The errors thrown by `ssoLogin.ts`, as a tagged union. -/
inductive LoginError where
  | unknownProfile (profileName : String)
  | registrationFailed
  | providerError (e : ProviderError)
  | incompleteToken
deriving Repr, DecidableEq

structure PollLoginResult where
  success : Bool
  pending : Option Bool := none
deriving Repr, DecidableEq

structure AppState where
  registeredClient : Option RegisteredClient
  sessionStore : SessionMap

/-- `getRegisteredClient` from `src/aws/ssoLogin.ts`: returns the cached
client if one exists — whatever `region` is asked for — and otherwise
registers a new one via the provider oracle `registerResponse`.  Returns
the client together with the updated cache. -/
def getRegisteredClient (cache : Option RegisteredClient) (region : String)
    (registerResponse : RegisterClientResponse) :
    Except LoginError (RegisteredClient × Option RegisteredClient) :=
  match cache with
  | some c => .ok (c, some c)
  | none =>
    match registerResponse.clientId, registerResponse.clientSecret with
    | some id, some sec => .ok (⟨id, sec⟩, some ⟨id, sec⟩)
    | _, _ => .error .registrationFailed

/-- `pollForLogin` from `src/aws/ssoLogin.ts`.  `tokenResult` is the
outcome of the `CreateTokenCommand` network call; `now` is `Date.now()`.
The region argument of `getRegisteredClient` is the profile's SSO
region. -/
def pollForLogin (profiles : List SsoProfile)
    (registerResponse : RegisterClientResponse)
    (tokenResult : Except ProviderError CreateTokenResponse) (now : Int)
    (st : AppState) (profileName deviceCode sessionId : String) :
    Except LoginError (PollLoginResult × AppState) :=
  match profiles.find? (fun p => p.name == profileName) with
  | none => .error (.unknownProfile profileName)
  | some profile =>
    match getRegisteredClient st.registeredClient profile.ssoRegion registerResponse with
    | .error e => .error e
    | .ok (_client, cache) =>
      let st := { st with registeredClient := cache }
      match tokenResult with
      | .error err =>
        if err.name == some "AuthorizationPendingException"
            || err.error == some "authorization_pending" then
          .ok ({ success := false, pending := some true }, st)
        else .error (.providerError err)
      | .ok tokenRes =>
        match tokenRes.accessToken, tokenRes.expiresIn with
        | some accessToken, some expiresIn =>
          let expiresAt := now + expiresIn * 1000
          let session : ConnectedSsoSession :=
            { ssoSession := profile.ssoSession,
              ssoRegion := profile.ssoRegion,
              accessToken := accessToken,
              expiresAt := some expiresAt }
          let st := { st with sessionStore := setSsoSession st.sessionStore sessionId session }
          .ok ({ success := true }, st)
        | _, _ => .error .incompleteToken

/-! ## Derived quantities named for the proofs -/

/-- The batch of messages the provider accepted, as computed by the source:
the batch filtered by absence of the entry's composite id in the failure
list. -/
def successfulBatchOf (sf : Nat → List String)
    (batch : List RedriveInputMessage) (i : Nat) : List RedriveInputMessage :=
  (batch.enum.filter
    (fun p => !((sf i).contains (compositeId (i + p.1) p.2.messageId)))).map Prod.snd

/-- `deleteAfterSend && successfulBatch.length > 0`. -/
def doDeleteOf (sf : Nat → List String) (das : Bool)
    (batch : List RedriveInputMessage) (i : Nat) : Bool :=
  das && decide (0 < (successfulBatchOf sf batch i).length)

/-- The dedup key of a message: `msg.MessageId ?? ""`. -/
def msgKey (m : Message) : String := m.MessageId.getD ""

/-- Value of a decimal digit character. -/
def digitVal (c : Char) : Nat := c.toNat - 48

/-- Read a digit string back as a number. -/
def evalDigits (ds : List Char) : Nat := ds.foldl (fun a c => a * 10 + digitVal c) 0

/-! ## Concrete inputs used by witnesses and counterexamples -/

def redriveMsgsW : List RedriveInputMessage :=
  [⟨"m0", "r0", "b0"⟩, ⟨"m1", "r1", "b1"⟩, ⟨"m2", "r2", "b2"⟩]

def sendFailW : Nat → List String := fun i => if i = 0 then ["1-m1"] else []

def noFailW : Nat → List String := fun _ => []

def msgsCex : List RedriveInputMessage := [⟨"a", "ra", "ba"⟩, ⟨"b", "rb", "bb"⟩]

def sendFailCex : Nat → List String := fun i => if i = 0 then ["0-a"] else []

def rcvEmptyW : Nat → Nat → List Message := fun _ _ => []

def rcvFreshCex : Nat → Nat → List Message := fun t _ => [{ MessageId := some (toString t) }]

def parseW : String → Except String Json := fun s =>
  if s = "G" then .ok (.obj [("a", .num 1)]) else .error "Unexpected token"

def sessW : ConnectedSsoSession := ⟨"s", "eu-west-1", "tok", some 100⟩

def storeW : SessionMap := [("sid", sessW)]

def profW : SsoProfile := ⟨"dev", "https://portal.example/start", "eu-west-1", "my-sso"⟩

def regRespW : RegisterClientResponse := ⟨some "cid", some "sec"⟩

def errPendW : ProviderError := ⟨some "AuthorizationPendingException", none⟩

def stW : AppState := ⟨none, []⟩

/-! ## Decimal representation: `Nat.repr` is dash-free and injective

Needed to show that the composite entry ids `{globalIndex}-{messageId}`
are unique: everything before the first dash is the decimal index. -/

theorem digitChar_ne_dash {m : Nat} (h : m < 10) : Nat.digitChar m ≠ '-' := by
  interval_cases m <;> decide

theorem toDigitsCore_ne_dash :
    ∀ (fuel n : Nat) (acc : List Char), (∀ c ∈ acc, c ≠ '-') →
      ∀ c ∈ Nat.toDigitsCore 10 fuel n acc, c ≠ '-' := by
  intro fuel
  induction fuel with
  | zero => intro n acc hacc; simpa [Nat.toDigitsCore] using hacc
  | succ fuel ih =>
    intro n acc hacc c hc
    simp only [Nat.toDigitsCore] at hc
    by_cases h0 : n / 10 = 0
    · rw [if_pos h0] at hc
      rcases List.mem_cons.mp hc with hc | hc
      · exact hc ▸ digitChar_ne_dash (Nat.mod_lt n (by omega))
      · exact hacc c hc
    · rw [if_neg h0] at hc
      refine ih (n / 10) _ ?_ c hc
      intro d hd
      rcases List.mem_cons.mp hd with hd | hd
      · exact hd ▸ digitChar_ne_dash (Nat.mod_lt n (by omega))
      · exact hacc d hd

theorem repr_ne_dash (n : Nat) : ∀ c ∈ (Nat.repr n).data, c ≠ '-' := by
  intro c hc
  have : (Nat.repr n).data = Nat.toDigitsCore 10 (n + 1) n [] := rfl
  rw [this] at hc
  exact toDigitsCore_ne_dash (n + 1) n [] (by simp) c hc

theorem toDigitsCore_acc (fuel : Nat) :
    ∀ (n : Nat) (acc : List Char),
      Nat.toDigitsCore 10 fuel n acc = Nat.toDigitsCore 10 fuel n [] ++ acc := by
  induction fuel with
  | zero => intro n acc; simp [Nat.toDigitsCore]
  | succ fuel ih =>
    intro n acc
    simp only [Nat.toDigitsCore]
    by_cases h0 : n / 10 = 0
    · simp [h0]
    · simp only [h0, if_neg, not_false_iff]
      rw [ih (n / 10) [Nat.digitChar (n % 10)], ih (n / 10) (Nat.digitChar (n % 10) :: acc)]
      simp

theorem evalDigits_append (xs : List Char) (c : Char) :
    evalDigits (xs ++ [c]) = evalDigits xs * 10 + digitVal c := by
  simp [evalDigits, List.foldl_append]

theorem digitVal_digitChar {m : Nat} (h : m < 10) : digitVal (Nat.digitChar m) = m := by
  interval_cases m <;> decide

theorem evalDigits_toDigitsCore :
    ∀ (fuel n : Nat), n < fuel → evalDigits (Nat.toDigitsCore 10 fuel n []) = n := by
  intro fuel
  induction fuel with
  | zero => omega
  | succ fuel ih =>
    intro n hn
    simp only [Nat.toDigitsCore]
    by_cases h0 : n / 10 = 0
    · have h10 : n < 10 := by omega
      simp only [h0, if_pos]
      simpa [evalDigits] using (digitVal_digitChar (Nat.mod_lt n (by omega))).trans
        (Nat.mod_eq_of_lt h10)
    · simp only [h0, if_neg, not_false_iff]
      rw [toDigitsCore_acc, evalDigits_append,
        ih (n / 10) (by have := Nat.div_lt_self (by omega : 0 < n) (by omega : 1 < 10); omega),
        digitVal_digitChar (Nat.mod_lt n (by omega))]
      omega

theorem natRepr_injective {m n : Nat} (h : Nat.repr m = Nat.repr n) : m = n := by
  have hd : Nat.toDigitsCore 10 (m + 1) m [] = Nat.toDigitsCore 10 (n + 1) n [] :=
    congrArg String.data h
  have hm := evalDigits_toDigitsCore (m + 1) m (by omega)
  have hn := evalDigits_toDigitsCore (n + 1) n (by omega)
  rw [hd, hn] at hm
  exact hm.symm

theorem append_dashFree_inj :
    ∀ (xs : List Char) (ys : List Char) (xs' ys' : List Char),
      (∀ c ∈ xs, c ≠ '-') → (∀ c ∈ xs', c ≠ '-') →
      xs ++ '-' :: ys = xs' ++ '-' :: ys' → xs = xs' ∧ ys = ys' := by
  intro xs
  induction xs with
  | nil =>
    intro ys xs' ys' _ hx' heq
    cases xs' with
    | nil => simpa using heq
    | cons a t =>
      exfalso
      simp only [List.nil_append, List.cons_append, List.cons.injEq] at heq
      exact hx' a (by simp) heq.1.symm
  | cons a t ih =>
    intro ys xs' ys' hx hx' heq
    cases xs' with
    | nil =>
      exfalso
      simp only [List.cons_append, List.nil_append, List.cons.injEq] at heq
      exact hx a (by simp) heq.1
    | cons a' t' =>
      simp only [List.cons_append, List.cons.injEq] at heq
      obtain ⟨rfl, heq⟩ := heq
      obtain ⟨h1, h2⟩ := ih ys t' ys' (fun c hc => hx c (by simp [hc]))
        (fun c hc => hx' c (by simp [hc])) heq
      exact ⟨by rw [h1], h2⟩

theorem compositeId_inj {g g' : Nat} {m m' : String}
    (h : compositeId g m = compositeId g' m') : g = g' ∧ m = m' := by
  have hd : (Nat.repr g).data ++ '-' :: m.data = (Nat.repr g').data ++ '-' :: m'.data := by
    have := congrArg String.data h
    simpa [compositeId, toString, String.data_append] using this
  obtain ⟨h1, h2⟩ := append_dashFree_inj _ _ _ _ (repr_ne_dash g) (repr_ne_dash g') hd
  constructor
  · exact natRepr_injective (by
      cases hr : Nat.repr g
      cases hr' : Nat.repr g'
      simp_all)
  · cases m; cases m'; simp_all

/-! ## Redrive: equation lemmas (definitional projections of one loop step) -/

theorem redriveLoop_nil (sf df : Nat → List String) (das : Bool) (fuel i : Nat) :
    redriveLoop sf df das fuel [] i = ([], ⟨0, 0, 0, 0⟩) := by
  cases fuel <;> rfl

theorem redriveLoop_succ_sent (sf df : Nat → List String) (das : Bool)
    (fuel : Nat) (msg : RedriveInputMessage) (more : List RedriveInputMessage) (i : Nat) :
    (redriveLoop sf df das (fuel + 1) (msg :: more) i).2.sent =
      ((successfulBatchOf sf ((msg :: more).take 10) i).length : Int)
        + (redriveLoop sf df das fuel ((msg :: more).drop 10) (i + 10)).2.sent := rfl

theorem redriveLoop_succ_sendFailed (sf df : Nat → List String) (das : Bool)
    (fuel : Nat) (msg : RedriveInputMessage) (more : List RedriveInputMessage) (i : Nat) :
    (redriveLoop sf df das (fuel + 1) (msg :: more) i).2.sendFailed =
      ((((msg :: more).take 10).length : Int)
          - ((successfulBatchOf sf ((msg :: more).take 10) i).length : Int))
        + (redriveLoop sf df das fuel ((msg :: more).drop 10) (i + 10)).2.sendFailed := rfl

theorem redriveLoop_succ_deleted (sf df : Nat → List String) (das : Bool)
    (fuel : Nat) (msg : RedriveInputMessage) (more : List RedriveInputMessage) (i : Nat) :
    (redriveLoop sf df das (fuel + 1) (msg :: more) i).2.deleted =
      (if doDeleteOf sf das ((msg :: more).take 10) i then
          ((successfulBatchOf sf ((msg :: more).take 10) i).length : Int)
            - ((df i).length : Int)
        else 0)
        + (redriveLoop sf df das fuel ((msg :: more).drop 10) (i + 10)).2.deleted := rfl

theorem redriveLoop_succ_deleteFailed (sf df : Nat → List String) (das : Bool)
    (fuel : Nat) (msg : RedriveInputMessage) (more : List RedriveInputMessage) (i : Nat) :
    (redriveLoop sf df das (fuel + 1) (msg :: more) i).2.deleteFailed =
      (if doDeleteOf sf das ((msg :: more).take 10) i then (((df i).length : Int)) else 0)
        + (redriveLoop sf df das fuel ((msg :: more).drop 10) (i + 10)).2.deleteFailed := rfl

theorem redriveLoop_succ_traces (sf df : Nat → List String) (das : Bool)
    (fuel : Nat) (msg : RedriveInputMessage) (more : List RedriveInputMessage) (i : Nat) :
    (redriveLoop sf df das (fuel + 1) (msg :: more) i).1 =
      (⟨((msg :: more).take 10).enum.map
          (fun p => (⟨compositeId (i + p.1) p.2.messageId, p.2.body⟩ : SendBatchEntry)),
        if doDeleteOf sf das ((msg :: more).take 10) i then
          some ((successfulBatchOf sf ((msg :: more).take 10) i).enum.map
            (fun p => (⟨compositeId (i + p.1) p.2.messageId, p.2.receiptHandle⟩ : DeleteBatchEntry)))
        else none⟩ : BatchTrace)
        :: (redriveLoop sf df das fuel ((msg :: more).drop 10) (i + 10)).1 := rfl

theorem successfulBatchOf_length_le (sf : Nat → List String)
    (batch : List RedriveInputMessage) (i : Nat) :
    (successfulBatchOf sf batch i).length ≤ batch.length := by
  unfold successfulBatchOf
  calc ((batch.enum.filter _).map Prod.snd).length
      = (batch.enum.filter _).length := List.length_map _ _
    _ ≤ batch.enum.length := List.length_filter_le _ _
    _ = batch.length := List.enum_length

/-! ## Redrive: summary invariant (C1 groundwork) -/

theorem redriveLoop_summary (sf df : Nat → List String) (das : Bool) :
    ∀ (fuel : Nat) (msgs : List RedriveInputMessage) (i : Nat),
      msgs.length ≤ fuel →
      ((redriveLoop sf df das fuel msgs i).2.sent
          + (redriveLoop sf df das fuel msgs i).2.sendFailed = (msgs.length : Int)) ∧
      0 ≤ (redriveLoop sf df das fuel msgs i).2.sent ∧
      0 ≤ (redriveLoop sf df das fuel msgs i).2.sendFailed ∧
      0 ≤ (redriveLoop sf df das fuel msgs i).2.deleteFailed ∧
      ((redriveLoop sf df das fuel msgs i).2.deleted
          + (redriveLoop sf df das fuel msgs i).2.deleteFailed
          ≤ (redriveLoop sf df das fuel msgs i).2.sent) ∧
      (das = false → (redriveLoop sf df das fuel msgs i).2.deleted = 0
          ∧ (redriveLoop sf df das fuel msgs i).2.deleteFailed = 0) := by
  intro fuel
  induction fuel with
  | zero =>
    intro msgs i hlen
    have : msgs = [] := List.eq_nil_of_length_eq_zero (by omega)
    subst this
    simp [redriveLoop_nil]
  | succ fuel ih =>
    intro msgs i hlen
    match msgs with
    | [] => simp [redriveLoop_nil]
    | msg :: more =>
      obtain ⟨ih1, ih2, ih3, ih4, ih5, ih6⟩ :=
        ih ((msg :: more).drop 10) (i + 10)
          (by rw [List.length_drop]; simp only [List.length_cons] at hlen ⊢; omega)
      have hsuccLe := successfulBatchOf_length_le sf ((msg :: more).take 10) i
      have hbatchLen : ((msg :: more).take 10).length = min 10 (msg :: more).length :=
        List.length_take 10 (msg :: more)
      have hdropLen : ((msg :: more).drop 10).length = (msg :: more).length - 10 :=
        List.length_drop 10 (msg :: more)
      rw [redriveLoop_succ_sent, redriveLoop_succ_sendFailed, redriveLoop_succ_deleted,
        redriveLoop_succ_deleteFailed]
      refine ⟨?_, ?_, ?_, ?_, ?_, ?_⟩
      · push_cast [hdropLen] at ih1 ⊢
        omega
      · positivity
      · have : ((successfulBatchOf sf ((msg :: more).take 10) i).length : Int)
            ≤ (((msg :: more).take 10).length : Int) := by exact_mod_cast hsuccLe
        omega
      · split
        · have : (0 : Int) ≤ ((df i).length : Int) := by positivity
          omega
        · omega
      · split
        · omega
        · omega
      · intro hdas
        have hdd : doDeleteOf sf das ((msg :: more).take 10) i = false := by
          simp [doDeleteOf, hdas]
        obtain ⟨ihd, ihdf⟩ := ih6 hdas
        rw [hdd, ihd, ihdf]
        norm_num

/-! ## Enumeration helpers -/

theorem enumFrom_map_apply {α β : Type} (f : Nat → α → β) (l : List α) (i : Nat) :
    (l.enumFrom i).map (fun p => f p.1 p.2) = l.enum.map (fun p => f (i + p.1) p.2) := by
  rw [List.enumFrom_eq_map_enum, List.map_map]
  refine List.map_congr_left ?_
  intro p _
  simp [Function.comp, Prod.map, Nat.add_comm]

theorem enum_map_take_drop {α β : Type} (f : Nat → α → β) (msgs : List α) (i : Nat) :
    msgs.enum.map (fun p => f (i + p.1) p.2) =
      (msgs.take 10).enum.map (fun p => f (i + p.1) p.2)
        ++ (msgs.drop 10).enum.map (fun p => f (i + 10 + p.1) p.2) := by
  have h1 : msgs.enum.map (fun p => f (i + p.1) p.2)
      = (msgs.enumFrom i).map (fun p => f p.1 p.2) := (enumFrom_map_apply f msgs i).symm
  have h2 : msgs.enumFrom i
      = (msgs.take 10).enumFrom i ++ (msgs.drop 10).enumFrom (i + (msgs.take 10).length) := by
    conv_lhs => rw [← List.take_append_drop 10 msgs]
    rw [List.enumFrom_append]
  rw [h1, h2, List.map_append, enumFrom_map_apply, enumFrom_map_apply]
  by_cases h : 10 ≤ msgs.length
  · have h10 : (msgs.take 10).length = 10 := by rw [List.length_take]; omega
    rw [h10]
  · have hnil : msgs.drop 10 = [] := List.drop_eq_nil_of_le (by omega)
    simp [hnil]

/-! ## Redrive: send entries carry the global composite ids (C6 groundwork) -/

theorem redriveLoop_sendEntries_flatten (sf df : Nat → List String) (das : Bool) :
    ∀ (fuel : Nat) (msgs : List RedriveInputMessage) (i : Nat),
      msgs.length ≤ fuel →
      ((redriveLoop sf df das fuel msgs i).1.map (·.sendEntries)).flatten =
        msgs.enum.map
          (fun p => (⟨compositeId (i + p.1) p.2.messageId, p.2.body⟩ : SendBatchEntry)) := by
  intro fuel
  induction fuel with
  | zero =>
    intro msgs i hlen
    have : msgs = [] := List.eq_nil_of_length_eq_zero (by omega)
    subst this
    simp [redriveLoop_nil]
  | succ fuel ih =>
    intro msgs i hlen
    match msgs with
    | [] => simp [redriveLoop_nil]
    | msg :: more =>
      rw [redriveLoop_succ_traces]
      simp only [List.map_cons, List.flatten_cons]
      rw [ih ((msg :: more).drop 10) (i + 10)
        (by rw [List.length_drop]; simp only [List.length_cons] at hlen ⊢; omega)]
      exact (enum_map_take_drop
        (fun g m => (⟨compositeId g m.messageId, m.body⟩ : SendBatchEntry))
        (msg :: more) i).symm

theorem sendEntryIds_nodup (msgs : List RedriveInputMessage) (i : Nat) :
    ((msgs.enum.map
        (fun p => (⟨compositeId (i + p.1) p.2.messageId, p.2.body⟩ : SendBatchEntry))).map
      (·.Id)).Nodup := by
  rw [List.map_map]
  have henum : msgs.enum.Nodup :=
    List.Nodup.of_map Prod.fst (List.nodup_enum_map_fst msgs)
  refine List.Nodup.map_on ?_ henum
  intro x hx y hy hxy
  simp only [Function.comp] at hxy
  have hg : i + x.1 = i + y.1 := (compositeId_inj hxy).1
  exact List.inj_on_of_nodup_map (List.nodup_enum_map_fst msgs) hx hy (by omega)

theorem successfulBatchOf_noFail (sf : Nat → List String)
    (batch : List RedriveInputMessage) (i : Nat) (h : sf i = []) :
    successfulBatchOf sf batch i = batch := by
  unfold successfulBatchOf
  rw [h]
  simp [List.enum_map_snd]

theorem redriveLoop_deleteEntries_noFail (sf df : Nat → List String)
    (hsf : ∀ j, sf j = []) :
    ∀ (fuel : Nat) (msgs : List RedriveInputMessage) (i : Nat),
      msgs.length ≤ fuel →
      ((redriveLoop sf df true fuel msgs i).1.map
          (fun tr => tr.deleteEntries.getD [])).flatten =
        msgs.enum.map
          (fun p => (⟨compositeId (i + p.1) p.2.messageId, p.2.receiptHandle⟩ : DeleteBatchEntry)) := by
  intro fuel
  induction fuel with
  | zero =>
    intro msgs i hlen
    have : msgs = [] := List.eq_nil_of_length_eq_zero (by omega)
    subst this
    simp [redriveLoop_nil]
  | succ fuel ih =>
    intro msgs i hlen
    match msgs with
    | [] => simp [redriveLoop_nil]
    | msg :: more =>
      rw [redriveLoop_succ_traces]
      have hsucc : successfulBatchOf sf ((msg :: more).take 10) i = (msg :: more).take 10 :=
        successfulBatchOf_noFail sf _ i (hsf i)
      have hpos : 0 < ((msg :: more).take 10).length := by
        rw [List.length_take]
        simp only [List.length_cons]
        omega
      have hdd : doDeleteOf sf true ((msg :: more).take 10) i = true := by
        unfold doDeleteOf
        rw [hsucc]
        simp only [Bool.true_and, decide_eq_true_eq]
        exact hpos
      rw [hdd]
      simp only [if_pos, List.map_cons, List.flatten_cons, Option.getD_some, hsucc]
      rw [ih ((msg :: more).drop 10) (i + 10)
        (by rw [List.length_drop]; simp only [List.length_cons] at hlen ⊢; omega)]
      exact (enum_map_take_drop
        (fun g m => (⟨compositeId g m.messageId, m.receiptHandle⟩ : DeleteBatchEntry))
        (msg :: more) i).symm

/-! ## Receive loop groundwork (C3, C8, C9) -/

theorem receiveLoop_zero (receive : Nat → Nat → List Message) (maxMessages : Nat)
    (t : Nat) (seen : List String) (acc : List Message) (reqs : Nat) :
    receiveLoop receive maxMessages 0 t seen acc reqs =
      if maxMessages ≤ acc.length then (acc, reqs) else (acc, reqs) := rfl

theorem receiveLoop_succ (receive : Nat → Nat → List Message) (maxMessages : Nat)
    (fuel t : Nat) (seen : List String) (acc : List Message) (reqs : Nat) :
    receiveLoop receive maxMessages (fuel + 1) t seen acc reqs =
      if maxMessages ≤ acc.length then (acc, reqs)
      else if (receive t (min 10 (maxMessages - acc.length))).length = 0 then (acc, reqs + 1)
      else if (processBatch (receive t (min 10 (maxMessages - acc.length))) seen acc 0).2.2 = 0 then
        ((processBatch (receive t (min 10 (maxMessages - acc.length))) seen acc 0).2.1, reqs + 1)
      else
        receiveLoop receive maxMessages fuel (t + 1)
          (processBatch (receive t (min 10 (maxMessages - acc.length))) seen acc 0).1
          (processBatch (receive t (min 10 (maxMessages - acc.length))) seen acc 0).2.1
          (reqs + 1) := rfl

theorem processBatch_count :
    ∀ (batch : List Message) (seen : List String) (acc : List Message) (n : Nat),
      ((processBatch batch seen acc n).2.1.length + n
          = acc.length + (processBatch batch seen acc n).2.2) ∧
      n ≤ (processBatch batch seen acc n).2.2 ∧
      (processBatch batch seen acc n).2.2 ≤ n + batch.length := by
  intro batch
  induction batch with
  | nil => intro seen acc n; simp [processBatch]
  | cons msg rest ih =>
    intro seen acc n
    simp only [processBatch]
    by_cases h : seen.contains (msg.MessageId.getD "")
    · rw [if_pos h]
      have := ih seen acc n
      simp only [List.length_cons]
      omega
    · rw [if_neg h]
      have := ih (msg.MessageId.getD "" :: seen) (acc ++ [msg]) (n + 1)
      simp only [List.length_append, List.length_cons, List.length_nil] at this ⊢
      omega

theorem processBatch_invariant :
    ∀ (batch : List Message) (seen : List String) (acc : List Message) (n : Nat),
      (acc.map msgKey).Nodup → (∀ k ∈ acc.map msgKey, k ∈ seen) →
      (((processBatch batch seen acc n).2.1.map msgKey).Nodup ∧
        (∀ k ∈ (processBatch batch seen acc n).2.1.map msgKey,
          k ∈ (processBatch batch seen acc n).1)) := by
  intro batch
  induction batch with
  | nil =>
    intro seen acc n h1 h2
    simp only [processBatch]
    exact ⟨h1, h2⟩
  | cons msg rest ih =>
    intro seen acc n h1 h2
    simp only [processBatch]
    by_cases h : seen.contains (msg.MessageId.getD "")
    · rw [if_pos h]
      exact ih seen acc n h1 h2
    · rw [if_neg h]
      have hnotin : msg.MessageId.getD "" ∉ seen := by
        intro hmem
        exact h (List.elem_iff.mpr hmem)
      refine ih (msg.MessageId.getD "" :: seen) (acc ++ [msg]) (n + 1) ?_ ?_
      · rw [List.map_append]
        rw [List.nodup_append]
        refine ⟨h1, by simp [msgKey], ?_⟩
        intro k hk
        simp only [List.map_cons, List.map_nil, List.mem_singleton, msgKey]
        intro hkey
        rw [hkey] at hk
        exact hnotin (h2 _ hk)
      · intro k hk
        rw [List.map_append] at hk
        rcases List.mem_append.mp hk with hk | hk
        · exact List.mem_cons_of_mem _ (h2 k hk)
        · simp only [List.map_cons, List.map_nil, List.mem_singleton, msgKey] at hk
          rw [hk]
          exact List.mem_cons_self _ _

theorem receiveLoop_nodup (receive : Nat → Nat → List Message) (maxMessages : Nat) :
    ∀ (fuel t : Nat) (seen : List String) (acc : List Message) (reqs : Nat),
      (acc.map msgKey).Nodup → (∀ k ∈ acc.map msgKey, k ∈ seen) →
      (((receiveLoop receive maxMessages fuel t seen acc reqs).1.map msgKey).Nodup) := by
  intro fuel
  induction fuel with
  | zero =>
    intro t seen acc reqs h1 _
    rw [receiveLoop_zero]
    split <;> exact h1
  | succ fuel ih =>
    intro t seen acc reqs h1 h2
    rw [receiveLoop_succ]
    split
    · exact h1
    · split
      · exact h1
      · obtain ⟨hn, hm⟩ := processBatch_invariant
          (receive t (min 10 (maxMessages - acc.length))) seen acc 0 h1 h2
        split
        · exact hn
        · exact ih (t + 1) _ _ (reqs + 1) hn hm

theorem receiveLoop_length (receive : Nat → Nat → List Message) (maxMessages : Nat)
    (hrcv : ∀ t k, (receive t k).length ≤ k) :
    ∀ (fuel t : Nat) (seen : List String) (acc : List Message) (reqs : Nat),
      acc.length ≤ maxMessages →
      (receiveLoop receive maxMessages fuel t seen acc reqs).1.length ≤ maxMessages := by
  intro fuel
  induction fuel with
  | zero =>
    intro t seen acc reqs hacc
    rw [receiveLoop_zero]
    split <;> exact hacc
  | succ fuel ih =>
    intro t seen acc reqs hacc
    rw [receiveLoop_succ]
    split
    · exact hacc
    · rename_i hlt
      have hlt' : acc.length < maxMessages := by omega
      have hb := hrcv t (min 10 (maxMessages - acc.length))
      obtain ⟨hc1, hc2, hc3⟩ := processBatch_count
        (receive t (min 10 (maxMessages - acc.length))) seen acc 0
      have hlen : (processBatch (receive t (min 10 (maxMessages - acc.length))) seen acc 0).2.1.length
          ≤ maxMessages := by omega
      split
      · exact hacc
      · split
        · exact hlen
        · exact ih (t + 1) _ _ (reqs + 1) hlen

theorem receiveLoop_requests (receive : Nat → Nat → List Message) (maxMessages : Nat) :
    ∀ (fuel t : Nat) (seen : List String) (acc : List Message) (reqs : Nat),
      (receiveLoop receive maxMessages fuel t seen acc reqs).2
        ≤ reqs + (maxMessages - acc.length) := by
  intro fuel
  induction fuel with
  | zero =>
    intro t seen acc reqs
    rw [receiveLoop_zero]
    split <;> omega
  | succ fuel ih =>
    intro t seen acc reqs
    rw [receiveLoop_succ]
    split
    · omega
    · rename_i hlt
      have hlt' : acc.length < maxMessages := by omega
      obtain ⟨hc1, hc2, hc3⟩ := processBatch_count
        (receive t (min 10 (maxMessages - acc.length))) seen acc 0
      split
      · omega
      · split
        · omega
        · rename_i hne
          have := ih (t + 1)
            (processBatch (receive t (min 10 (maxMessages - acc.length))) seen acc 0).1
            (processBatch (receive t (min 10 (maxMessages - acc.length))) seen acc 0).2.1
            (reqs + 1)
          omega

theorem receiveLoop_fuel_irrelevant (receive : Nat → Nat → List Message) (maxMessages : Nat) :
    ∀ (fuel₁ fuel₂ t : Nat) (seen : List String) (acc : List Message) (reqs : Nat),
      maxMessages - acc.length ≤ fuel₁ → maxMessages - acc.length ≤ fuel₂ →
      receiveLoop receive maxMessages fuel₁ t seen acc reqs
        = receiveLoop receive maxMessages fuel₂ t seen acc reqs := by
  intro fuel₁
  induction fuel₁ with
  | zero =>
    intro fuel₂ t seen acc reqs h1 h2
    have hle : maxMessages ≤ acc.length := by omega
    cases fuel₂
    · rfl
    · rw [receiveLoop_zero, receiveLoop_succ, if_pos hle, if_pos hle]
  | succ fuel₁ ih =>
    intro fuel₂ t seen acc reqs h1 h2
    by_cases hle : maxMessages ≤ acc.length
    · cases fuel₂
      · rw [receiveLoop_succ, receiveLoop_zero, if_pos hle, if_pos hle]
      · rw [receiveLoop_succ, receiveLoop_succ, if_pos hle, if_pos hle]
    · have hlt : acc.length < maxMessages := by omega
      cases fuel₂ with
      | zero => omega
      | succ fuel₂ =>
        rw [receiveLoop_succ, receiveLoop_succ]
        rw [if_neg hle, if_neg hle]
        obtain ⟨hc1, hc2, hc3⟩ := processBatch_count
          (receive t (min 10 (maxMessages - acc.length))) seen acc 0
        split
        · rfl
        · split
          · rfl
          · rename_i hbne hne
            exact ih fuel₂ (t + 1) _ _ (reqs + 1) (by omega) (by omega)

/-! ## Filter lemmas (C2, C10 groundwork) -/

theorem filterByAttributePath_cons (parse : String → Except String Json)
    (m : RawMessage) (rest : List RawMessage) (path v : String) (ex : Bool) :
    filterByAttributePath parse (m :: rest) path v ex =
      filterByAttributePath parse [m] path v ex
        ++ filterByAttributePath parse rest path v ex := by
  cases hb : m.Body with
  | none => simp [filterByAttributePath, hb]
  | some b =>
    by_cases hbe : b = ""
    · simp [filterByAttributePath, hb, hbe]
    · cases hp : parse b with
      | error e => simp [filterByAttributePath, hb, hbe, hp]
      | ok parsed =>
        cases hg : getByPath parsed path with
        | none =>
          by_cases hex : ex = true
          · simp [filterByAttributePath, hb, hbe, hp, hg, hex]
          · simp [filterByAttributePath, hb, hbe, hp, hg, hex]
        | some value =>
          by_cases hm : (jsString value == v) = true
          · cases ex <;> simp [filterByAttributePath, hb, hbe, hp, hg, hm]
          · cases ex <;> simp [filterByAttributePath, hb, hbe, hp, hg, hm]

/-! ## SessionStore lemmas (C4 groundwork) -/

theorem sessionLookup_delete (store : SessionMap) (sid : String) :
    sessionLookup (sessionDelete store sid) sid = none := by
  unfold sessionLookup sessionDelete
  have : List.find? (fun p => p.1 == sid)
      (List.filter (fun p => p.1 != sid) store) = none := by
    rw [List.find?_eq_none]
    intro x hx
    have hne := List.of_mem_filter hx
    simp only [bne_iff_ne, ne_eq] at hne
    simp [hne]
  rw [this]
  rfl

theorem getSsoSession_deleted (store : SessionMap) (sid : String) (now : Int) :
    getSsoSession (sessionDelete store sid) sid now = (none, sessionDelete store sid) := by
  unfold getSsoSession
  rw [sessionLookup_delete]

theorem filterMap_messageId_nodup (l : List Message)
    (h : (l.map msgKey).Nodup) : (l.filterMap (fun m => m.MessageId)).Nodup := by
  induction l with
  | nil => simp
  | cons x t ih =>
    simp only [List.map_cons, List.nodup_cons] at h
    obtain ⟨hx, ht⟩ := h
    rw [List.filterMap_cons]
    cases hmx : x.MessageId with
    | none => exact ih ht
    | some s =>
      rw [List.nodup_cons]
      refine ⟨?_, ih ht⟩
      intro hmem
      apply hx
      obtain ⟨y, hy, hys⟩ := List.mem_filterMap.mp hmem
      have hkx : msgKey x = s := by unfold msgKey; rw [hmx]; rfl
      have hky : msgKey y = s := by unfold msgKey; rw [hys]; rfl
      rw [hkx]
      exact List.mem_map.mpr ⟨y, hy, hky⟩

theorem countP_isNone_le_count (l : List Message) :
    l.countP (fun m => m.MessageId.isNone) ≤ (l.map msgKey).count "" := by
  induction l with
  | nil => simp
  | cons x t ih =>
    simp only [List.countP_cons, List.map_cons, List.count_cons]
    by_cases hx : x.MessageId.isNone = true
    · have hk : msgKey x = "" := by
        unfold msgKey
        cases h : x.MessageId
        · rfl
        · rw [h] at hx; simp at hx
      simp [hx, hk]
      omega
    · have hx' : x.MessageId.isNone = false := by
        cases h : x.MessageId <;> simp_all
      simp [hx']
      split <;> omega

/-! ## Claims -/

/-- C1: for every call to `redriveMessages` the returned summary satisfies
`sent + sendFailed = messages.length` and `deleted + deleteFailed ≤ sent`,
and both delete counters are zero when `deleteAfterSend` is false,
regardless of which entries the provider reports as failed. -/
theorem redrive_summary_invariant (sf df : Nat → List String)
    (msgs : List RedriveInputMessage) (das : Bool) :
    ((redriveMessages sf df msgs das).2.sent
        + (redriveMessages sf df msgs das).2.sendFailed = (msgs.length : Int)) ∧
    ((redriveMessages sf df msgs das).2.deleted
        + (redriveMessages sf df msgs das).2.deleteFailed
        ≤ (redriveMessages sf df msgs das).2.sent) ∧
    (das = false → (redriveMessages sf df msgs das).2.deleted = 0
        ∧ (redriveMessages sf df msgs das).2.deleteFailed = 0) := by
  unfold redriveMessages
  obtain ⟨h1, _, _, _, h5, h6⟩ := redriveLoop_summary sf df das msgs.length msgs 0 le_rfl
  exact ⟨h1, h5, h6⟩

/-- Witness for C1: the summary invariant at a concrete three-message
redrive with one reported send failure and no delete pass. -/
theorem redrive_summary_invariant_witness :
    ((redriveMessages sendFailW noFailW redriveMsgsW false).2.sent
        + (redriveMessages sendFailW noFailW redriveMsgsW false).2.sendFailed
        = (redriveMsgsW.length : Int)) ∧
    ((redriveMessages sendFailW noFailW redriveMsgsW false).2.deleted
        + (redriveMessages sendFailW noFailW redriveMsgsW false).2.deleteFailed
        ≤ (redriveMessages sendFailW noFailW redriveMsgsW false).2.sent) ∧
    ((redriveMessages sendFailW noFailW redriveMsgsW false).2.deleted = 0
        ∧ (redriveMessages sendFailW noFailW redriveMsgsW false).2.deleteFailed = 0) :=
  ⟨(redrive_summary_invariant sendFailW noFailW redriveMsgsW false).1,
   (redrive_summary_invariant sendFailW noFailW redriveMsgsW false).2.1,
   (redrive_summary_invariant sendFailW noFailW redriveMsgsW false).2.2 rfl⟩

/-- C2: for a message whose body is present and non-empty, the
`exclude = false` and `exclude = true` runs of `filterByAttributePath`
partition the found-and-comparable case into disjoint, complementary
outputs decided by `String(value) = expectedValue`; a message whose body
fails to parse appears in the output of both runs; and the filter
processes messages independently (the output for `m :: rest` is the output
for `[m]` followed by the output for `rest`). -/
theorem filter_exclude_partition (parse : String → Except String Json)
    (path v : String) (m : RawMessage) (b : String)
    (hb : m.Body = some b) (hbe : b ≠ "") :
    (∀ (rest : List RawMessage) (ex : Bool),
      filterByAttributePath parse (m :: rest) path v ex
        = filterByAttributePath parse [m] path v ex
          ++ filterByAttributePath parse rest path v ex) ∧
    (∀ e, parse b = .error e →
      filterByAttributePath parse [m] path v false = [{ raw := m, parseError := some e }] ∧
      filterByAttributePath parse [m] path v true = [{ raw := m, parseError := some e }]) ∧
    (∀ j value, parse b = .ok j → getByPath j path = some value →
      ((jsString value = v →
        filterByAttributePath parse [m] path v false
          = [{ raw := m, parsedBody := some j, attributeValue := some value }] ∧
        filterByAttributePath parse [m] path v true = []) ∧
      (jsString value ≠ v →
        filterByAttributePath parse [m] path v false = [] ∧
        filterByAttributePath parse [m] path v true
          = [{ raw := m, parsedBody := some j, attributeValue := some value }]))) := by
  refine ⟨?_, ?_, ?_⟩
  · intro rest ex
    exact filterByAttributePath_cons parse m rest path v ex
  · intro e hp
    constructor <;> simp [filterByAttributePath, hb, hbe, hp]
  · intro j value hp hg
    constructor
    · intro hmv
      have hbeq : (jsString value == v) = true := by simp [hmv]
      constructor <;> simp [filterByAttributePath, hb, hbe, hp, hg, hbeq]
    · intro hmv
      have hbeq : (jsString value == v) = false := by simp [hmv]
      constructor <;> simp [filterByAttributePath, hb, hbe, hp, hg, hbeq]

/-- Witness for C2: at a concrete parse oracle and message, the matching
message is emitted by the `exclude = false` run with its original numeric
attribute value, and not emitted by the `exclude = true` run. -/
theorem filter_exclude_partition_witness :
    filterByAttributePath parseW [{ Body := some "G" }] "a" "1" false
      = [{ raw := { Body := some "G" }, parsedBody := some (.obj [("a", .num 1)]),
           attributeValue := some (.num 1) }] ∧
    filterByAttributePath parseW [{ Body := some "G" }] "a" "1" true = [] :=
  ((filter_exclude_partition parseW "a" "1" { Body := some "G" } "G" rfl
      (by decide)).2.2 (.obj [("a", .num 1)]) (.num 1) rfl rfl).1 rfl

/-- C3: the deduplicated receive never returns two entries with the same
message id, and (provided the provider honours the requested batch size,
`res.Messages.length ≤ MaxNumberOfMessages`) never returns more than the
clamp of `maxMessages` into `[1, 5000]`. -/
theorem receive_dedup_nodup_and_clamped (receive : Nat → Nat → List Message) (m : Nat)
    (hrcv : ∀ t k, (receive t k).length ≤ k) :
    ((receiveDeduplicated receive m).1.filterMap (fun msg => msg.MessageId)).Nodup ∧
    (receiveDeduplicated receive m).1.length ≤ clampMax m := by
  constructor
  · apply filterMap_messageId_nodup
    unfold receiveDeduplicated
    exact receiveLoop_nodup receive (clampMax m) (clampMax m) 0 [] [] 0 (by simp) (by simp)
  · unfold receiveDeduplicated
    exact receiveLoop_length receive (clampMax m) hrcv (clampMax m) 0 [] [] 0 (by simp)

/-- Witness for C3 at a provider that always answers with an empty batch. -/
theorem receive_dedup_nodup_and_clamped_witness :
    ((receiveDeduplicated rcvEmptyW 7).1.filterMap (fun msg => msg.MessageId)).Nodup ∧
    (receiveDeduplicated rcvEmptyW 7).1.length ≤ clampMax 7 :=
  receive_dedup_nodup_and_clamped rcvEmptyW 7 (fun t k => by simp [rcvEmptyW])

/-- C4: a stored session whose `expiresAt` has passed is reported absent
by `getSsoSession` and evicted; every subsequent read of the same id also
reports absent and leaves the store unchanged; and any session value the
store ever returns is unexpired at the time of that read. -/
theorem session_expiry_eviction (store : SessionMap) (sid : String) (now : Int)
    (session : ConnectedSsoSession) (t : Int)
    (hlook : sessionLookup store sid = some session)
    (hexp : session.expiresAt = some t) (hpast : t ≤ now) :
    (getSsoSession store sid now).1 = none ∧
    (getSsoSession store sid now).2 = sessionDelete store sid ∧
    (∀ now2 : Int, getSsoSession (getSsoSession store sid now).2 sid now2
        = (none, (getSsoSession store sid now).2)) ∧
    (∀ (store2 : SessionMap) (sid2 : String) (now2 t2 : Int) (v : ConnectedSsoSession),
      (getSsoSession store2 sid2 now2).1 = some v → v.expiresAt = some t2 → now2 < t2) := by
  have h0 : getSsoSession store sid now = (none, sessionDelete store sid) := by
    unfold getSsoSession
    rw [hlook]
    simp [hexp, hpast]
  refine ⟨by rw [h0], by rw [h0], ?_, ?_⟩
  · intro now2
    rw [h0]
    exact getSsoSession_deleted store sid now2
  · intro store2 sid2 now2 t2 v hv ht2
    unfold getSsoSession at hv
    cases hl : sessionLookup store2 sid2 with
    | none => simp [hl] at hv
    | some value =>
      cases he : value.expiresAt with
      | some te =>
        by_cases hte : te ≤ now2
        · simp [hl, he, hte] at hv
        · simp [hl, he, hte] at hv
          rw [← hv] at ht2
          rw [he] at ht2
          have hteq : te = t2 := by injection ht2
          omega
      | none =>
        simp [hl, he] at hv
        rw [← hv] at ht2
        rw [he] at ht2
        exact absurd ht2 (by simp)

/-- Witness for C4 at a one-entry store read at its exact expiry time. -/
theorem session_expiry_eviction_witness :
    (getSsoSession storeW "sid" 100).1 = none ∧
    getSsoSession (getSsoSession storeW "sid" 100).2 "sid" 200
      = (none, (getSsoSession storeW "sid" 100).2) := by
  have h := session_expiry_eviction storeW "sid" 100 sessW 100 rfl rfl (by decide)
  exact ⟨h.1, h.2.2.1 200⟩

/-- C5: when the profile resolves, the client registration step succeeds
(or is cached) and the provider rejects the token call with an
authorization-pending error, `pollForLogin` returns exactly
`success = false, pending = true` and performs no write to the session
store: the resulting state carries `st.sessionStore` unchanged. -/
theorem pollForLogin_pending_no_write (profiles : List SsoProfile)
    (regResp : RegisterClientResponse) (err : ProviderError) (now : Int)
    (st : AppState) (profileName deviceCode sessionId : String) (p : SsoProfile)
    (c : RegisteredClient) (cache2 : Option RegisteredClient)
    (hp : profiles.find? (fun q => q.name == profileName) = some p)
    (hreg : getRegisteredClient st.registeredClient p.ssoRegion regResp = .ok (c, cache2))
    (hpend : err.name = some "AuthorizationPendingException"
        ∨ err.error = some "authorization_pending") :
    pollForLogin profiles regResp (.error err) now st profileName deviceCode sessionId
      = .ok ({ success := false, pending := some true },
          { registeredClient := cache2, sessionStore := st.sessionStore }) := by
  have hcond : (err.name == some "AuthorizationPendingException"
      || err.error == some "authorization_pending") = true := by
    rcases hpend with h | h <;> simp [h]
  simp [pollForLogin, hp, hreg, hcond]

/-- Witness for C5: a concrete pending poll leaves the session store
empty and returns the pending result. -/
theorem pollForLogin_pending_no_write_witness :
    pollForLogin [profW] regRespW (.error errPendW) 0 stW "dev" "dc" "sid"
      = .ok ({ success := false, pending := some true },
          { registeredClient := some ⟨"cid", "sec"⟩, sessionStore := stW.sessionStore }) :=
  pollForLogin_pending_no_write [profW] regRespW errPendW 0 stW "dev" "dc" "sid" profW
    ⟨"cid", "sec"⟩ (some ⟨"cid", "sec"⟩) rfl rfl (Or.inl rfl)

/-- C6 (amended): in `redriveMessages` the batched send requests assign
each message the composite id `{globalIndex}-{messageId}` and these send
ids are globally unique across the whole call; the delete request for a
batch, however, numbers the successfully sent messages by their position
inside the successful subset, so its ids coincide with the global
composite ids exactly when no earlier message of the batch failed — in
particular they all do when the provider reports no send failures. -/
theorem redrive_composite_ids (sf df : Nat → List String) (das : Bool)
    (msgs : List RedriveInputMessage) :
    (((redriveMessages sf df msgs das).1.map (fun tr => tr.sendEntries)).flatten =
        msgs.enum.map
          (fun p => (⟨compositeId p.1 p.2.messageId, p.2.body⟩ : SendBatchEntry))) ∧
    ((((redriveMessages sf df msgs das).1.map (fun tr => tr.sendEntries)).flatten.map
        (fun e => e.Id)).Nodup) ∧
    ((∀ j, sf j = []) →
      ((redriveMessages sf df msgs true).1.map (fun tr => tr.deleteEntries.getD [])).flatten =
        msgs.enum.map
          (fun p => (⟨compositeId p.1 p.2.messageId, p.2.receiptHandle⟩ : DeleteBatchEntry))) := by
  have hzs : msgs.enum.map
      (fun p => (⟨compositeId (0 + p.1) p.2.messageId, p.2.body⟩ : SendBatchEntry))
      = msgs.enum.map
        (fun p => (⟨compositeId p.1 p.2.messageId, p.2.body⟩ : SendBatchEntry)) := by
    refine List.map_congr_left ?_
    intro p _
    rw [Nat.zero_add]
  have hsend : ((redriveMessages sf df msgs das).1.map (fun tr => tr.sendEntries)).flatten =
      msgs.enum.map
        (fun p => (⟨compositeId p.1 p.2.messageId, p.2.body⟩ : SendBatchEntry)) := by
    unfold redriveMessages
    rw [redriveLoop_sendEntries_flatten sf df das msgs.length msgs 0 le_rfl]
    exact hzs
  refine ⟨hsend, ?_, ?_⟩
  · rw [hsend]
    have := sendEntryIds_nodup msgs 0
    rw [hzs] at this
    exact this
  · intro hsf
    have hzd : msgs.enum.map
        (fun p => (⟨compositeId (0 + p.1) p.2.messageId, p.2.receiptHandle⟩ : DeleteBatchEntry))
        = msgs.enum.map
          (fun p => (⟨compositeId p.1 p.2.messageId, p.2.receiptHandle⟩ : DeleteBatchEntry)) := by
      refine List.map_congr_left ?_
      intro p _
      rw [Nat.zero_add]
    unfold redriveMessages
    rw [redriveLoop_deleteEntries_noFail sf df hsf msgs.length msgs 0 le_rfl]
    exact hzd

/-- Witness for C6 (amended): with no reported send failures, the delete
request ids of a concrete three-message redrive are the global composite
ids. -/
theorem redrive_composite_ids_witness :
    ((redriveMessages noFailW noFailW redriveMsgsW true).1.map
        (fun tr => tr.deleteEntries.getD [])).flatten =
      redriveMsgsW.enum.map
        (fun p => (⟨compositeId p.1 p.2.messageId, p.2.receiptHandle⟩ : DeleteBatchEntry)) :=
  (redrive_composite_ids noFailW noFailW true redriveMsgsW).2.2 (fun _ => rfl)

/-- Counterexample for C6 as stated: with two messages in one batch where
the provider rejects the first (`0-a`), the second message — global index
1, messageId `b` — is deleted under id `0-b`, not its global composite id
`1-b`. -/
theorem redrive_delete_id_counterexample :
    (((redriveMessages sendFailCex noFailW msgsCex true).1.map
        (fun tr => tr.deleteEntries.getD [])).flatten.map (fun e => e.Id)) = ["0-b"] ∧
    compositeId 1 "b" = "1-b" ∧
    ¬ (("0-b" : String) = "1-b") := by
  refine ⟨rfl, rfl, by decide⟩

/-- C7 (amended): the registered OIDC client is cached globally, not per
region: the first successful registration stores the client, and any
later call — whatever region it asks for — returns that same cached
client without consulting the provider response. -/
theorem registered_client_global_cache (region region2 : String)
    (resp resp2 : RegisterClientResponse) (id sec : String)
    (hid : resp.clientId = some id) (hsec : resp.clientSecret = some sec) :
    getRegisteredClient none region resp = .ok (⟨id, sec⟩, some ⟨id, sec⟩) ∧
    getRegisteredClient (some ⟨id, sec⟩) region2 resp2 = .ok (⟨id, sec⟩, some ⟨id, sec⟩) := by
  constructor
  · simp [getRegisteredClient, hid, hsec]
  · rfl

/-- Witness for C7 (amended) at concrete regions and responses. -/
theorem registered_client_global_cache_witness :
    getRegisteredClient none "eu-west-1" regRespW
      = .ok (⟨"cid", "sec"⟩, some ⟨"cid", "sec"⟩) ∧
    getRegisteredClient (some ⟨"cid", "sec"⟩) "us-east-1" ⟨none, none⟩
      = .ok (⟨"cid", "sec"⟩, some ⟨"cid", "sec"⟩) :=
  registered_client_global_cache "eu-west-1" "us-east-1" regRespW ⟨none, none⟩
    "cid" "sec" rfl rfl

/-- Counterexample for C7 as stated: a client registered for
`eu-west-1` is returned unchanged by a later call for `us-east-1`, even
though the provider would have answered that call with a different
client — the cache is shared across regions. -/
theorem registered_client_region_counterexample :
    getRegisteredClient none "eu-west-1" ⟨some "cid-eu", some "sec-eu"⟩
      = .ok (⟨"cid-eu", "sec-eu"⟩, some ⟨"cid-eu", "sec-eu"⟩) ∧
    getRegisteredClient (some ⟨"cid-eu", "sec-eu"⟩) "us-east-1" ⟨some "cid-us", some "sec-us"⟩
      = .ok (⟨"cid-eu", "sec-eu"⟩, some ⟨"cid-eu", "sec-eu"⟩) ∧
    ¬ ((⟨"cid-eu", "sec-eu"⟩ : RegisteredClient) = ⟨"cid-us", "sec-us"⟩) := by
  refine ⟨rfl, rfl, by decide⟩

/-- C8 (amended): the receive loop terminates — its fuelled unfolding is
independent of the fuel once the fuel reaches the clamped message target —
and it issues at most `clampMax maxMessages` receive requests in total
(the spec's `ceil(max/10) + 1` bound holds only for full batches; see the
counterexample). -/
theorem receive_dedup_terminates_bounded (receive : Nat → Nat → List Message)
    (m fuel : Nat) (hfuel : clampMax m ≤ fuel) :
    receiveLoop receive (clampMax m) fuel 0 [] [] 0 = receiveDeduplicated receive m ∧
    (receiveDeduplicated receive m).2 ≤ clampMax m := by
  constructor
  · unfold receiveDeduplicated
    exact receiveLoop_fuel_irrelevant receive (clampMax m) fuel (clampMax m) 0 [] [] 0
      (by simpa using hfuel) (by simp)
  · unfold receiveDeduplicated
    have := receiveLoop_requests receive (clampMax m) (clampMax m) 0 [] [] 0
    simpa using this

/-- Witness for C8 (amended) at a provider that always answers with an
empty batch and ample fuel. -/
theorem receive_dedup_terminates_bounded_witness :
    receiveLoop rcvEmptyW (clampMax 3) 6000 0 [] [] 0 = receiveDeduplicated rcvEmptyW 3 ∧
    (receiveDeduplicated rcvEmptyW 3).2 ≤ clampMax 3 :=
  receive_dedup_terminates_bounded rcvEmptyW 3 6000 (by decide)

/-- Counterexample for C8 as stated: with `maxMessages = 3` and a provider
that returns one fresh message per request, the loop issues 3 requests,
exceeding the claimed bound `ceil(3/10) + 1 = 2`. -/
theorem receive_request_bound_counterexample :
    (receiveDeduplicated rcvFreshCex 3).2 = 3 ∧
    ¬ ((receiveDeduplicated rcvFreshCex 3).2 ≤ (clampMax 3 + 9) / 10 + 1) := by
  refine ⟨rfl, by decide⟩

/-- C9: in every `receiveDeduplicated` call, messages lacking a
`MessageId` share the dedup key `""`, so at most one id-less message ever
appears in the result; later id-less messages are dropped as duplicates. -/
theorem receive_dedup_single_idless (receive : Nat → Nat → List Message) (m : Nat) :
    (receiveDeduplicated receive m).1.countP (fun msg => msg.MessageId.isNone) ≤ 1 := by
  have hn : (((receiveDeduplicated receive m).1).map msgKey).Nodup := by
    unfold receiveDeduplicated
    exact receiveLoop_nodup receive (clampMax m) (clampMax m) 0 [] [] 0 (by simp) (by simp)
  have h1 := countP_isNone_le_count (receiveDeduplicated receive m).1
  have h2 := List.nodup_iff_count_le_one.mp hn ""
  omega

/-- C10: `filterByAttributePath` emits nothing — in particular no
parse-error entry — for a message whose body is absent or is the empty
string, wherever it occurs in the input list. -/
theorem filter_skips_bodyless (parse : String → Except String Json)
    (path v : String) (ex : Bool) (m : RawMessage)
    (hm : m.Body = none ∨ m.Body = some "") :
    ∀ (pre post : List RawMessage),
      filterByAttributePath parse (pre ++ m :: post) path v ex
        = filterByAttributePath parse (pre ++ post) path v ex := by
  intro pre
  induction pre with
  | nil =>
    intro post
    rcases hm with hm | hm <;> simp [filterByAttributePath, hm]
  | cons a tl ih =>
    intro post
    simp only [List.cons_append, filterByAttributePath, List.append_eq]
    rw [ih post]

/-- Witness for C10: an empty-string body (which `JSON.parse` would
reject) contributes nothing to the output. -/
theorem filter_skips_bodyless_witness :
    filterByAttributePath parseW [{ Body := some "" }, { Body := some "G" }] "a" "1" false
      = filterByAttributePath parseW [{ Body := some "G" }] "a" "1" false :=
  filter_skips_bodyless parseW "a" "1" false { Body := some "" } (Or.inr rfl)
    [] [{ Body := some "G" }]

end DlqRedrive
